import Mathlib

/-!
# The prediction form controller of `static/app.js`

A shallow embedding of the browser script: the script's module state and the
page elements it touches are one record, every function of the script is a
function on that record, and the services of the JavaScript host that the
script calls (string to number conversion, the JSON reader, conversion to
string, rounding to a double) are the fields of a `Host` value over which the
theorems quantify. A run of an asynchronous function is modelled from its call to
its end, for a request that settles; the outcome of the request and the behaviour of
the chart library are arguments of the run.
-/

set_option autoImplicit false

namespace FraudApp

/-! ## JavaScript values -/

/-- JavaScript numbers: the three non-finite values and the finite ones, a finite
number being carried as the rational it denotes (the two zeros are one value). -/
inductive JsNumber where
  | nan
  | posInf
  | negInf
  | fin (q : ℚ)
deriving DecidableEq

/-- The values a parsed JSON text or a property read can produce. An object is its
list of own entries in insertion order. -/
inductive JsValue where
  | undefined
  | null
  | bool (b : Bool)
  | num (n : JsNumber)
  | str (s : String)
  | arr (items : List JsValue)
  | obj (entries : List (String × JsValue))

/-- The test `Number.isNaN`. -/
def JsNumber.isNaN : JsNumber → Bool
  | .nan => true
  | _ => false

/-- The operator `typeof` on the values of the model. -/
def jsTypeof : JsValue → String
  | .undefined => "undefined"
  | .null => "object"
  | .bool _ => "boolean"
  | .num _ => "number"
  | .str _ => "string"
  | .arr _ => "object"
  | .obj _ => "object"

/-- The test `Array.isArray`. -/
def isArray : JsValue → Bool
  | .arr _ => true
  | _ => false

/-- The comparison `v === null`. -/
def isNull : JsValue → Bool
  | .null => true
  | _ => false

/-- Truthiness of a string: every string but the empty one. -/
def strTruthy (s : String) : Bool :=
  !s.data.isEmpty

/-- Truthiness of a value, as used by `||` and by `if`. -/
def truthy : JsValue → Bool
  | .undefined => false
  | .null => false
  | .bool b => b
  | .num .nan => false
  | .num (.fin q) => decide (q ≠ 0)
  | .num _ => true
  | .str s => strTruthy s
  | .arr _ => true
  | .obj _ => true

/-- The characters `String.prototype.trim` strips: the WhiteSpace and the
LineTerminator code points of ECMAScript. -/
def isTrimChar (c : Char) : Bool :=
  let n := c.toNat
  n == 0x09 || n == 0x0A || n == 0x0B || n == 0x0C || n == 0x0D || n == 0x20 ||
  n == 0xA0 || n == 0x1680 || (0x2000 ≤ n && n ≤ 0x200A) || n == 0x2028 ||
  n == 0x2029 || n == 0x202F || n == 0x205F || n == 0x3000 || n == 0xFEFF

/-- The method `trim` on a list of characters. -/
def trimChars (cs : List Char) : List Char :=
  ((cs.dropWhile isTrimChar).reverse.dropWhile isTrimChar).reverse

/-- The method `String.prototype.trim`. -/
def jsTrim (s : String) : String :=
  String.mk (trimChars s.data)

/-- Reading the own property `key` of an object given by its entries; a missing key
reads as `undefined`. -/
def objGet : List (String × JsValue) → String → JsValue
  | [], _ => .undefined
  | (k, v) :: rest, key => if k = key then v else objGet rest key

/-- Writing the own property `key`: an existing key keeps its place, a new key goes
last. -/
def objSet : List (String × JsValue) → String → JsValue → List (String × JsValue)
  | [], key, v => [(key, v)]
  | (k, w) :: rest, key, v => if k = key then (k, v) :: rest else (k, w) :: objSet rest key v

/-! ## The host -/

/-- The services of the JavaScript host the script relies on. -/
structure Host where
  /-- `Number(s)` on a string. -/
  stringToNumber : String → JsNumber
  /-- `Number(v)` on an array or an object. -/
  objectToNumber : JsValue → JsNumber
  /-- `JSON.parse`; `none` when it throws a SyntaxError. -/
  jsonParse : String → Option JsValue
  /-- Conversion of a number to a string. -/
  numberToString : JsNumber → String
  /-- Conversion of an array or an object to a string. -/
  objectToString : JsValue → String
  /-- The double nearest to a real number, used for the result of an arithmetic
  operation. -/
  fround : ℚ → ℚ
  /-- The message of the TypeError raised by reading the named property of `null`
  or `undefined`. -/
  typeErrorMessage : String → String

/-! ## Module constants -/

/-- The constant `manualFields`. -/
def manualFields : List String := ["Amount"]

/-- The constant `sampleData`. -/
def sampleData : List (String × JsValue) :=
  [ ("V1", .num (.fin (-1.359807))),
    ("V2", .num (.fin (-0.072781))),
    ("V3", .num (.fin 2.536346)),
    ("V4", .num (.fin 1.378155)),
    ("V5", .num (.fin (-0.338321))),
    ("V6", .num (.fin 0.462388)),
    ("V7", .num (.fin 0.239599)),
    ("V8", .num (.fin 0.098698)),
    ("V9", .num (.fin 0.363787)),
    ("V10", .num (.fin 0.090794)),
    ("V11", .num (.fin (-0.5516))),
    ("V12", .num (.fin (-0.617801))),
    ("V13", .num (.fin (-0.99139))),
    ("V14", .num (.fin (-0.311169))),
    ("V15", .num (.fin 1.468177)),
    ("V16", .num (.fin (-0.470401))),
    ("V17", .num (.fin 0.207971)),
    ("V18", .num (.fin 0.025791)),
    ("V19", .num (.fin 0.403993)),
    ("V20", .num (.fin 0.251412)),
    ("V21", .num (.fin (-0.018307))),
    ("V22", .num (.fin 0.277838)),
    ("V23", .num (.fin (-0.110474))),
    ("V24", .num (.fin 0.066928)),
    ("V25", .num (.fin 0.128539)),
    ("V26", .num (.fin (-0.189115))),
    ("V27", .num (.fin 0.133558)),
    ("V28", .num (.fin (-0.021053))),
    ("Amount", .num (.fin 149.62)) ]

/-- The constant `defaultFeaturePayload`: the entries of `sampleData` whose key is
not `Amount`. -/
def defaultFeaturePayload : List (String × JsValue) :=
  sampleData.filter (fun kv => kv.1 != "Amount")

/-! ## State -/

/-- The dataset handed to the chart: `[fraudProb, legitProb]`. -/
structure ChartData where
  fraud : JsNumber
  legit : JsNumber
deriving DecidableEq

/-- A chart object made by `new Chart`. -/
structure Chart where
  data : ChartData
  updates : Nat
  destroyed : Bool
deriving DecidableEq

/-- The module state of the script together with the page elements it reads and
writes. An element whose only class the script touches is `hidden` is the flag
saying whether it carries that class. -/
structure AppState where
  /-- The text of the input `field-<name>` for each manual field. -/
  manualInputs : String → String
  /-- The text of the JSON box; `none` when the page has no such element. -/
  jsonInput : Option String
  errorHidden : Bool
  errorText : String
  placeholderHidden : Bool
  resultsHidden : Bool
  badgeText : String
  badgeClasses : List String
  probabilityText : String
  submitDisabled : Bool
  sampleDisabled : Bool
  clearDisabled : Bool
  loadingHidden : Bool
  /-- The variable `chartInstance`: the index in `charts` of the chart it holds. -/
  chartInstance : Option Nat
  /-- Every chart constructed so far, in the order of construction. -/
  charts : List Chart

/-! ## Validation -/

/-- The tagged result of `validateInput`. -/
inductive ValidationResult where
  | valid (payload : JsValue)
  | invalid (error : String)

/-- The loop of `validateInput` over the manual fields, with the local variables
`payload` and `hasValue`; an early return is the error message. -/
def validateFields (h : Host) (inputs : String → String) :
    List String → List (String × JsValue) → Bool →
      Except String (List (String × JsValue) × Bool)
  | [], payload, hasValue => .ok (payload, hasValue)
  | field :: rest, payload, hasValue =>
    let value := jsTrim (inputs field)
    let hasValue := if strTruthy value then true else hasValue
    if !strTruthy value || (h.stringToNumber value).isNaN then
      .error ("Please enter a numeric value for " ++ field ++ ".")
    else
      validateFields h inputs rest (objSet payload field (.num (h.stringToNumber value)))
        hasValue

/-- The manual branch of `validateInput` for a given list of manual fields. -/
def validateManual (h : Host) (fields : List String) (inputs : String → String) :
    ValidationResult :=
  match validateFields h inputs fields [] false with
  | .error e => .invalid e
  | .ok (payload, hasValue) =>
    if !hasValue then
      .invalid "Please enter a transaction amount."
    else
      .valid (.obj (objSet defaultFeaturePayload "Amount" (objGet payload "Amount")))

/-- The JSON branch of `validateInput` on the text of the JSON box. -/
def validateJson (h : Host) (text : String) : ValidationResult :=
  match h.jsonParse text with
  | none => .invalid "Invalid JSON format."
  | some payload =>
    if jsTypeof payload != "object" || isArray payload || isNull payload then
      .invalid "JSON payload must be an object."
    else
      .valid payload

/-- The function `validateInput`. -/
def validateInput (h : Host) (st : AppState) : ValidationResult :=
  match st.jsonInput with
  | some text =>
    if strTruthy (jsTrim text) then validateJson h text
    else validateManual h manualFields st.manualInputs
  | none => validateManual h manualFields st.manualInputs

/-! ## Conversions and arithmetic -/

/-- Conversion of a value to a number (`Number(v)`). -/
def toNumber (h : Host) : JsValue → JsNumber
  | .undefined => .nan
  | .null => .fin 0
  | .bool true => .fin 1
  | .bool false => .fin 0
  | .num n => n
  | .str s => h.stringToNumber s
  | .arr items => h.objectToNumber (.arr items)
  | .obj entries => h.objectToNumber (.obj entries)

/-- Conversion of a value to a string (`String(v)`). -/
def jsToString (h : Host) : JsValue → String
  | .undefined => "undefined"
  | .null => "null"
  | .bool true => "true"
  | .bool false => "false"
  | .num n => h.numberToString n
  | .str s => s
  | .arr items => h.objectToString (.arr items)
  | .obj entries => h.objectToString (.obj entries)

/-- The comparison `v === s` with a string literal `s`. -/
def strictEqStr : JsValue → String → Bool
  | .str t, s => t == s
  | _, _ => false

/-- The function `Math.min` on two arguments. -/
def jsMin : JsNumber → JsNumber → JsNumber
  | .nan, _ => .nan
  | _, .nan => .nan
  | .negInf, _ => .negInf
  | _, .negInf => .negInf
  | .posInf, b => b
  | a, .posInf => a
  | .fin x, .fin y => .fin (min x y)

/-- The function `Math.max` on two arguments. -/
def jsMax : JsNumber → JsNumber → JsNumber
  | .nan, _ => .nan
  | _, .nan => .nan
  | .posInf, _ => .posInf
  | _, .posInf => .posInf
  | .negInf, b => b
  | a, .negInf => a
  | .fin x, .fin y => .fin (max x y)

/-- The sign rule of an infinite product: `true` stands for the positive
infinity. -/
def infOfSign (positive : Bool) : JsNumber :=
  if positive then .posInf else .negInf

/-- The operator `*`: the exact product of two finite numbers rounded by the host,
and the rules of the non-finite values. A finite product beyond the range of the
doubles is not turned into an infinity; the one product of the script is at most
100. -/
def jsMul (h : Host) : JsNumber → JsNumber → JsNumber
  | .nan, _ => .nan
  | _, .nan => .nan
  | .fin x, .fin y => .fin (h.fround (x * y))
  | .fin x, .posInf => if x = 0 then .nan else infOfSign (decide (0 < x))
  | .fin x, .negInf => if x = 0 then .nan else infOfSign (decide (x < 0))
  | .posInf, .fin y => if y = 0 then .nan else infOfSign (decide (0 < y))
  | .negInf, .fin y => if y = 0 then .nan else infOfSign (decide (y < 0))
  | .posInf, .posInf => .posInf
  | .negInf, .negInf => .posInf
  | .posInf, .negInf => .negInf
  | .negInf, .posInf => .negInf

/-- The operator `-`: the exact difference of two finite numbers rounded by the
host, and the rules of the non-finite values. A finite difference beyond the range of
the doubles is not turned into an infinity; the one difference of the script is
between 0 and 1. -/
def jsSub (h : Host) : JsNumber → JsNumber → JsNumber
  | .nan, _ => .nan
  | _, .nan => .nan
  | .fin x, .fin y => .fin (h.fround (x - y))
  | .fin _, .posInf => .negInf
  | .fin _, .negInf => .posInf
  | .posInf, .fin _ => .posInf
  | .negInf, .fin _ => .negInf
  | .posInf, .posInf => .nan
  | .negInf, .negInf => .nan
  | .posInf, .negInf => .posInf
  | .negInf, .posInf => .negInf

/-- The integer `n` with `n / 10` nearest to `x`, the larger one on a tie, for
`0 ≤ x`. -/
def tenths (x : ℚ) : Nat :=
  (Int.floor (x * 10 + 1 / 2)).toNat

/-- The decimal text of `n / 10` with one digit after the point. -/
def fixedDigits (n : Nat) : String :=
  toString (n / 10) ++ "." ++ toString (n % 10)

/-- The method `toFixed(1)` of a number. -/
def toFixed1 (h : Host) : JsNumber → String
  | .nan => "NaN"
  | .posInf => "Infinity"
  | .negInf => "-Infinity"
  | .fin x =>
    if x < 0 then
      if 10 ^ 21 ≤ -x then "-" ++ h.numberToString (.fin (-x))
      else "-" ++ fixedDigits (tenths (-x))
    else
      if 10 ^ 21 ≤ x then h.numberToString (.fin x)
      else fixedDigits (tenths x)

/-- Reading one of the properties `fraud_probability`, `risk_level`, `error` of a
response body: a TypeError on `null` and `undefined`, the own entry of an object,
and `undefined` on an array or a primitive value. -/
def getProp (h : Host) (v : JsValue) (key : String) : Except String JsValue :=
  match v with
  | .undefined => .error (h.typeErrorMessage key)
  | .null => .error (h.typeErrorMessage key)
  | .obj entries => .ok (objGet entries key)
  | _ => .ok .undefined

/-- The method `classList.remove` with several names. -/
def classRemove (classes : List String) (names : List String) : List String :=
  classes.filter (fun c => !names.contains c)

/-- The method `classList.add` with one name. -/
def classAdd (classes : List String) (name : String) : List String :=
  if classes.contains name then classes else classes ++ [name]

/-! ## The functions of the script -/

/-- The function `displayError`. -/
def displayError (message : String) (st : AppState) : AppState :=
  { st with errorText := message, errorHidden := false }

/-- The function `clearError`. -/
def clearError (st : AppState) : AppState :=
  { st with errorHidden := true, errorText := "" }

/-- The function `setLoading`. -/
def setLoading (isLoading : Bool) (st : AppState) : AppState :=
  { st with
    submitDisabled := isLoading
    sampleDisabled := isLoading
    clearDisabled := isLoading
    loadingHidden := !isLoading }

/-- The function `switchInputMode`. -/
def switchInputMode (st : AppState) : AppState :=
  clearError st

/-- The operator `v ?? d`. -/
def nullish (v d : JsValue) : JsValue :=
  match v with
  | .undefined => d
  | .null => d
  | w => w

/-- The function `fillSampleData`; `randomAmount` is the number drawn for the amount,
`Number((Math.random() * 490 + 10).toFixed(2))`. -/
def fillSampleData (h : Host) (randomAmount : JsNumber) (st : AppState) : AppState :=
  let st := manualFields.foldl
    (fun s field =>
      let value := if field = "Amount" then JsValue.num randomAmount else objGet sampleData field
      { s with
        manualInputs := Function.update s.manualInputs field
          (jsToString h (nullish value (.str ""))) })
    st
  clearError st

/-- Applying `f` to the chart at index `i`. -/
def modifyAt (f : Chart → Chart) : List Chart → Nat → List Chart
  | [], _ => []
  | c :: cs, 0 => f c :: cs
  | c :: cs, i + 1 => c :: modifyAt f cs i

/-- The function `clearForm`. -/
def clearForm (st : AppState) : AppState :=
  let st := manualFields.foldl
    (fun s field => { s with manualInputs := Function.update s.manualInputs field "" }) st
  let st := match st.jsonInput with
    | some _ => { st with jsonInput := some "" }
    | none => st
  let st := { st with placeholderHidden := false }
  let st := { st with resultsHidden := true }
  let st := clearError st
  match st.chartInstance with
  | some i =>
    { st with
      charts := modifyAt (fun c => { c with destroyed := true }) st.charts i
      chartInstance := none }
  | none => st

/-- The function `updateChart`. The argument `chartFails` is the error, if any, that
the call into the chart library (`update` or `new Chart`) throws; the result is the
state and the exception the function leaves with, if any. -/
def updateChart (h : Host) (chartFails : Option String) (fraudProb : JsNumber)
    (st : AppState) : AppState × Option String :=
  let legitProb := jsMax (.fin 0) (jsSub h (.fin 1) fraudProb)
  let data : ChartData := { fraud := fraudProb, legit := legitProb }
  match st.chartInstance with
  | some i =>
    let st := { st with charts := modifyAt (fun c => { c with data := data }) st.charts i }
    match chartFails with
    | some e => (st, some e)
    | none =>
      ({ st with charts := modifyAt (fun c => { c with updates := c.updates + 1 }) st.charts i },
        none)
  | none =>
    match chartFails with
    | some e => (st, some e)
    | none =>
      ({ st with
          chartInstance := some st.charts.length
          charts := st.charts ++ [{ data := data, updates := 0, destroyed := false }] },
        none)

/-- The class `displayResults` puts on the risk badge. -/
def badgeClassFor (riskLevel : JsValue) : String :=
  if strictEqStr riskLevel "HIGH" then "badge-error"
  else if strictEqStr riskLevel "MEDIUM" then "badge-warning"
  else "badge-success"

/-- The function `displayResults`; the result is the state and the exception the
function leaves with, if any. -/
def displayResults (h : Host) (chartFails : Option String) (data : JsValue)
    (st : AppState) : AppState × Option String :=
  let st := { st with placeholderHidden := true }
  let st := { st with resultsHidden := false }
  match getProp h data "fraud_probability" with
  | .error e => (st, some e)
  | .ok fp =>
    let probability := jsMax (.fin 0) (jsMin (.fin 1) (toNumber h fp))
    let percentage := toFixed1 h (jsMul h probability (.fin 100))
    let st := { st with probabilityText := percentage ++ "%" }
    match getProp h data "risk_level" with
    | .error e => (st, some e)
    | .ok riskLevel =>
      let st := { st with
        badgeText := jsToString h (if truthy riskLevel then riskLevel else .str "LOW") }
      let st := { st with
        badgeClasses := classRemove st.badgeClasses
          ["badge-success", "badge-warning", "badge-error"] }
      let st := { st with badgeClasses := classAdd st.badgeClasses (badgeClassFor riskLevel) }
      updateChart h chartFails probability st

/-- How `response.json()` ends. -/
inductive BodyOutcome where
  | throws (message : String)
  | parsed (data : JsValue)

/-- How the request to `/predict` ends: the promise of `fetch` is rejected, or a
response with its `ok` flag and body arrives. -/
inductive FetchOutcome where
  | rejected (message : String)
  | response (ok : Bool) (body : BodyOutcome)

/-- The `try` block shared by `submitPrediction` and `submitPredictionPayload`, on
the outcome of the request; the result is the state and the exception caught, if
any. -/
def predictionAttempt (h : Host) (net : FetchOutcome) (chartFails : Option String)
    (st : AppState) : AppState × Option String :=
  match net with
  | .rejected message => (st, some message)
  | .response ok body =>
    match body with
    | .throws message => (st, some message)
    | .parsed data =>
      if !ok then
        match getProp h data "error" with
        | .error e => (st, some e)
        | .ok err =>
          (st, some (jsToString h (if truthy err then err else .str "Prediction failed.")))
      else
        displayResults h chartFails data st

/-- The function `submitPredictionPayload`, for a run whose request settles;
`fetchPredict` gives the outcome of the request for the payload sent. -/
def submitPredictionPayload (h : Host) (fetchPredict : JsValue → FetchOutcome)
    (chartFails : Option String) (payload : JsValue) (st : AppState) : AppState :=
  let st := setLoading true st
  let st :=
    match predictionAttempt h (fetchPredict payload) chartFails st with
    | (st, some message) =>
      displayError (if strTruthy message then message else "Network error.") st
    | (st, none) => st
  setLoading false st

/-- The function `submitPrediction`, for a run whose request settles;
`fetchPredict` gives the outcome of the request for the payload sent. -/
def submitPrediction (h : Host) (fetchPredict : JsValue → FetchOutcome)
    (chartFails : Option String) (st : AppState) : AppState :=
  let st := clearError st
  match validateInput h st with
  | .invalid error => displayError error st
  | .valid payload =>
    let st := setLoading true st
    let st :=
      match predictionAttempt h (fetchPredict payload) chartFails st with
      | (st, some message) =>
        displayError (if strTruthy message then message else "Network error.") st
      | (st, none) => st
    setLoading false st

/-! ## Runs of the page -/

/-- The events of the page that run a function of the script or change the text of
an input. -/
inductive Action where
  | typeManual (field : String) (text : String)
  | typeJson (text : String)
  | switchInputMode
  | fillSampleData (randomAmount : JsNumber)
  | clearForm
  | updateChart (fraudProb : JsNumber) (chartFails : Option String)
  | displayResults (data : JsValue) (chartFails : Option String)
  | submitPrediction (fetchPredict : JsValue → FetchOutcome) (chartFails : Option String)
  | submitPredictionPayload (fetchPredict : JsValue → FetchOutcome)
      (chartFails : Option String) (payload : JsValue)

/-- The state after one event. -/
def step (h : Host) (st : AppState) : Action → AppState
  | .typeManual field text =>
    { st with manualInputs := Function.update st.manualInputs field text }
  | .typeJson text =>
    match st.jsonInput with
    | some _ => { st with jsonInput := some text }
    | none => st
  | .switchInputMode => switchInputMode st
  | .fillSampleData randomAmount => fillSampleData h randomAmount st
  | .clearForm => clearForm st
  | .updateChart fraudProb chartFails => (updateChart h chartFails fraudProb st).1
  | .displayResults data chartFails => (displayResults h chartFails data st).1
  | .submitPrediction fetchPredict chartFails => submitPrediction h fetchPredict chartFails st
  | .submitPredictionPayload fetchPredict chartFails payload =>
    submitPredictionPayload h fetchPredict chartFails payload st

/-- The state after a sequence of events. -/
def runActions (h : Host) (st : AppState) (actions : List Action) : AppState :=
  actions.foldl (step h) st

/-- The number of charts constructed and not destroyed. -/
def liveCharts (st : AppState) : Nat :=
  (st.charts.filter (fun c => !c.destroyed)).length

/-- The loading state is released: the three buttons are enabled and the loading
indicator is hidden. -/
def loadingReleased (st : AppState) : Prop :=
  st.submitDisabled = false ∧ st.sampleDisabled = false ∧ st.clearDisabled = false ∧
    st.loadingHidden = true

/-- The three style classes of the risk badge. -/
def badgeStyles : List String := ["badge-success", "badge-warning", "badge-error"]

/-- The chart variable and the chart registry agree: with no chart held every chart
of the registry is destroyed, and with a chart held it is at its index in the registry
and is the one chart not destroyed. -/
def ChartInvariant (chartInstance : Option Nat) (charts : List Chart) : Prop :=
  match chartInstance with
  | none => ∀ c ∈ charts, c.destroyed = true
  | some i => ∃ before c after, charts = before ++ c :: after ∧ before.length = i ∧
      c.destroyed = false ∧ (∀ x ∈ before, x.destroyed = true) ∧
      (∀ x ∈ after, x.destroyed = true)

/-- The states the page can reach: any sequence of events from a state in which no
chart has been constructed. -/
def Reachable (h : Host) (st : AppState) : Prop :=
  ∃ st0 actions, st0.chartInstance = none ∧ st0.charts = [] ∧ st = runActions h st0 actions

/-- The chart `new Chart` constructs in `updateChart` for the probability given. -/
def freshChart (h : Host) (fraudProb : JsNumber) : Chart :=
  { data := { fraud := fraudProb, legit := jsMax (.fin 0) (jsSub h (.fin 1) fraudProb) }
    updates := 0
    destroyed := false }

/-- The chart `c` after `updateChart` has given it the data of the probability and has
called `update`. -/
def refreshedChart (h : Host) (fraudProb : JsNumber) (c : Chart) : Chart :=
  { c with
    data := { fraud := fraudProb, legit := jsMax (.fin 0) (jsSub h (.fin 1) fraudProb) }
    updates := c.updates + 1 }

/-- The comparison `a <= b` of two numbers. -/
def jsLe : JsNumber → JsNumber → Bool
  | .nan, _ => false
  | _, .nan => false
  | .negInf, _ => true
  | _, .posInf => true
  | .posInf, _ => false
  | _, .negInf => false
  | .fin x, .fin y => decide (x ≤ y)

/-! ## Concrete inputs -/

/-- A host for running the model on the inputs of the examples below: arithmetic is
exact, and the conversions are tables holding the texts of the examples with the
answers a browser gives on them (`Number("")` is 0, `Number("149.62")` is 149.62,
`Number("abc")` is NaN; a single space and an unfinished object are not JSON). Texts
outside the tables, and the conversions of numbers and objects to strings, are not
used by any example. -/
def demoHost : Host where
  stringToNumber := fun s =>
    if s = "" then .fin 0
    else if s = "149.62" then .fin 149.62
    else .nan
  objectToNumber := fun _ => .nan
  jsonParse := fun s =>
    if s = "\x7b\"V1\": \"high\"\x7d" then some (.obj [("V1", .str "high")])
    else if s = "[1, 2]" then some (.arr [.num (.fin 1), .num (.fin 2)])
    else none
  numberToString := fun _ => "NaN"
  objectToString := fun _ => "[object Object]"
  fround := id
  typeErrorMessage := fun key =>
    "Cannot read properties of null (reading \"" ++ key ++ "\")"

/-- The page as loaded: empty inputs, nothing shown, no chart. -/
def idleState : AppState where
  manualInputs := fun _ => ""
  jsonInput := some ""
  errorHidden := true
  errorText := ""
  placeholderHidden := false
  resultsHidden := true
  badgeText := ""
  badgeClasses := ["badge"]
  probabilityText := ""
  submitDisabled := false
  sampleDisabled := false
  clearDisabled := false
  loadingHidden := true
  chartInstance := none
  charts := []

/-- The page with ` 149.62` typed in the Amount field. -/
def amountState : AppState :=
  { idleState with manualInputs := fun _ => " 149.62" }

/-- The page with `abc` typed in the Amount field. -/
def lettersState : AppState :=
  { idleState with manualInputs := fun _ => "abc" }

/-- The page with a single space in the JSON box and ` 149.62` in the Amount field. -/
def blankJsonState : AppState :=
  { idleState with jsonInput := some " ", manualInputs := fun _ => " 149.62" }

/-- The page with an object holding a string value in the JSON box. -/
def stringValueState : AppState :=
  { idleState with jsonInput := some "\x7b\"V1\": \"high\"\x7d" }

/-- The page with an array in the JSON box. -/
def arrayJsonState : AppState :=
  { idleState with jsonInput := some "[1, 2]" }

/-- The page with a text that is not JSON in the JSON box. -/
def brokenJsonState : AppState :=
  { idleState with jsonInput := some "\x7boops" }

/-- A response body with probability 0.83 and risk level HIGH. -/
def highResult : JsValue :=
  .obj [("fraud_probability", .num (.fin 0.83)), ("risk_level", .str "HIGH")]

/-- A response body with the probability -0.2 and no risk level. -/
def belowResult : JsValue :=
  .obj [("fraud_probability", .num (.fin (-0.2)))]

/-- A response body with the probability 1.5 and no risk level. -/
def aboveResult : JsValue :=
  .obj [("fraud_probability", .num (.fin 1.5))]

/-- A server answering every request with `highResult`. -/
def highServer : JsValue → FetchOutcome :=
  fun _ => .response true (.parsed highResult)

/-- A visit of the page: the amount is typed and submitted, the form is cleared, and a
result is shown again. -/
def demoVisit : List Action :=
  [ .typeManual "Amount" " 149.62",
    .submitPrediction highServer none,
    .clearForm,
    .displayResults highResult none ]

/-- The keys of the payload of the manual mode, in order. -/
def featureKeys : List String :=
  ["V1", "V2", "V3", "V4", "V5", "V6", "V7", "V8", "V9", "V10", "V11", "V12", "V13", "V14",
    "V15", "V16", "V17", "V18", "V19", "V20", "V21", "V22", "V23", "V24", "V25", "V26", "V27",
    "V28", "Amount"]

/-! ## Lemmas on strings and objects -/

theorem strTruthy_iff (s : String) : strTruthy s = true ↔ s ≠ "" := by
  cases s with
  | mk cs =>
    cases cs with
    | nil => simp [strTruthy]
    | cons c cs => simp [strTruthy, String.ext_iff]

theorem strTruthy_eq_false_iff (s : String) : strTruthy s = false ↔ s = "" := by
  rw [← Bool.not_eq_true, strTruthy_iff]
  simp

theorem fieldMessage_amount :
    "Please enter a numeric value for " ++ "Amount" ++ "." =
      "Please enter a numeric value for Amount." := by
  decide

theorem objSet_default_amount (v : JsValue) :
    objSet defaultFeaturePayload "Amount" v = defaultFeaturePayload ++ [("Amount", v)] := by
  rfl

/-- The manual branch on the field list of the script: one test on the trimmed text of
the Amount field. -/
theorem validateManual_manualFields (h : Host) (inputs : String → String) :
    validateManual h manualFields inputs =
      if jsTrim (inputs "Amount") = "" ∨
          h.stringToNumber (jsTrim (inputs "Amount")) = .nan then
        .invalid "Please enter a numeric value for Amount."
      else
        .valid (.obj (defaultFeaturePayload ++
          [("Amount", .num (h.stringToNumber (jsTrim (inputs "Amount"))))])) := by
  have hnan : ∀ n : JsNumber, n.isNaN = true ↔ n = .nan := by
    intro n
    cases n <;> simp [JsNumber.isNaN]
  have hget : ∀ v : JsValue, objGet (objSet [] "Amount" v) "Amount" = v := by
    intro v
    simp [objSet, objGet]
  simp only [validateManual, manualFields, validateFields]
  generalize jsTrim (inputs "Amount") = v
  by_cases hv : v = ""
  · subst hv
    have ht : strTruthy "" = false := by decide
    simp [ht, fieldMessage_amount]
  · have ht : strTruthy v = true := (strTruthy_iff _).2 hv
    by_cases hn : h.stringToNumber v = .nan
    · simp [ht, hn, JsNumber.isNaN, fieldMessage_amount]
    · have hn2 : (h.stringToNumber v).isNaN = false := by
        rw [← Bool.not_eq_true, hnan]
        exact hn
      simp only [ht, hn, hn2, hv, hget, objSet_default_amount, Bool.not_true, Bool.or_false,
        Bool.false_eq_true, if_false, if_true, or_self]

/-- With the JSON box absent or blank `validateInput` is its manual branch. -/
theorem validateInput_of_blank (h : Host) (st : AppState)
    (hjson : ∀ text, st.jsonInput = some text → jsTrim text = "") :
    validateInput h st = validateManual h manualFields st.manualInputs := by
  unfold validateInput
  cases hj : st.jsonInput with
  | none => rfl
  | some text =>
    have ht : strTruthy (jsTrim text) = false := (strTruthy_eq_false_iff _).2 (hjson text hj)
    simp [ht]

/-- With a text that is not blank in the JSON box `validateInput` is its JSON
branch. -/
theorem validateInput_of_text (h : Host) (st : AppState) (text : String)
    (hj : st.jsonInput = some text) (hne : jsTrim text ≠ "") :
    validateInput h st = validateJson h text := by
  have ht : strTruthy (jsTrim text) = true := (strTruthy_iff _).2 hne
  simp [validateInput, hj, ht]

theorem objGet_append_other (l : List (String × JsValue)) (a key : String) (v : JsValue)
    (hk : key ≠ a) : objGet (l ++ [(a, v)]) key = objGet l key := by
  induction l with
  | nil => simp [objGet, Ne.symm hk]
  | cons kv rest ih =>
    obtain ⟨k, w⟩ := kv
    by_cases hkk : k = key
    · simp [objGet, hkk]
    · simp [objGet, hkk, ih]

theorem objGet_filter_other (l : List (String × JsValue)) (a key : String) (hk : key ≠ a) :
    objGet (l.filter (fun kv => kv.1 != a)) key = objGet l key := by
  induction l with
  | nil => rfl
  | cons kv rest ih =>
    obtain ⟨k, w⟩ := kv
    by_cases hka : k = a
    · have hak : ¬ a = key := fun e => hk e.symm
      subst hka
      simp [List.filter_cons, objGet, ih, hak]
    · by_cases hkk : k = key
      · subst hkk
        simp [List.filter_cons, objGet, hka]
      · simp [List.filter_cons, objGet, hka, hkk, ih]

theorem objGet_default_amount (v : JsValue) :
    objGet (defaultFeaturePayload ++ [("Amount", v)]) "Amount" = v := by
  rfl

theorem keys_default_amount (v : JsValue) :
    (defaultFeaturePayload ++ [("Amount", v)]).map Prod.fst = featureKeys := by
  rfl

/-- Every value of `defaultFeaturePayload` is a number other than NaN. -/
theorem defaultFeaturePayload_numbers :
    ∀ kv ∈ defaultFeaturePayload, ∃ n, kv.2 = JsValue.num n ∧ n ≠ JsNumber.nan := by
  intro kv hkv
  simp only [defaultFeaturePayload, sampleData, List.filter_cons, List.filter_nil] at hkv
  simp at hkv
  rcases hkv with h | h | h | h | h | h | h | h | h | h | h | h | h | h | h | h | h | h | h |
    h | h | h | h | h | h | h | h | h <;> subst h <;> exact ⟨_, rfl, by simp⟩

/-- The JSON branch never answers with a manual payload: its result is one of the two
JSON errors or the parsed object. -/
theorem validateJson_cases (h : Host) (text : String) :
    (h.jsonParse text = none ∧ validateJson h text = .invalid "Invalid JSON format.") ∨
    (∃ entries, h.jsonParse text = some (.obj entries) ∧
      validateJson h text = .valid (.obj entries)) ∨
    (∃ v, h.jsonParse text = some v ∧ (∀ entries, v ≠ .obj entries) ∧
      validateJson h text = .invalid "JSON payload must be an object.") := by
  unfold validateJson
  cases hp : h.jsonParse text with
  | none => exact Or.inl ⟨rfl, rfl⟩
  | some v =>
    cases v with
    | obj entries => exact Or.inr (Or.inl ⟨entries, rfl, by simp [jsTypeof, isArray, isNull]⟩)
    | undefined => exact Or.inr (Or.inr ⟨_, rfl, by simp, by simp [jsTypeof]⟩)
    | null => exact Or.inr (Or.inr ⟨_, rfl, by simp, by simp [jsTypeof, isNull]⟩)
    | bool b => exact Or.inr (Or.inr ⟨_, rfl, by simp, by simp [jsTypeof]⟩)
    | num n => exact Or.inr (Or.inr ⟨_, rfl, by simp, by simp [jsTypeof]⟩)
    | str t => exact Or.inr (Or.inr ⟨_, rfl, by simp, by simp [jsTypeof]⟩)
    | arr items => exact Or.inr (Or.inr ⟨_, rfl, by simp, by simp [jsTypeof, isArray]⟩)

theorem fieldMessage_ne_noAmount (field : String) :
    "Please enter a numeric value for " ++ field ++ "." ≠
      "Please enter a transaction amount." := by
  intro heq
  have h1 := congrArg (fun s : String => s.data.get? 15) heq
  simp [String.data_append] at h1

/-- Once `hasValue` is set the loop over the fields leaves it set. -/
theorem validateFields_hasValue (h : Host) (inputs : String → String) (fields : List String) :
    ∀ payload result hasValue,
      validateFields h inputs fields payload true = .ok (result, hasValue) →
        hasValue = true := by
  induction fields with
  | nil =>
    intro payload result hasValue hr
    simp [validateFields] at hr
    exact hr.2
  | cons field rest ih =>
    intro payload result hasValue hr
    simp only [validateFields] at hr
    split at hr
    · cases hr
    · simp only [ite_self] at hr
      exact ih _ _ _ hr

/-- An early return of the loop over the fields carries the message of a field. -/
theorem validateFields_error (h : Host) (inputs : String → String) (fields : List String) :
    ∀ payload hasValue e,
      validateFields h inputs fields payload hasValue = .error e →
        ∃ field, e = "Please enter a numeric value for " ++ field ++ "." := by
  induction fields with
  | nil =>
    intro payload hasValue e hr
    simp [validateFields] at hr
  | cons field rest ih =>
    intro payload hasValue e hr
    simp only [validateFields] at hr
    split at hr
    · injection hr with he
      exact ⟨field, he.symm⟩
    · exact ih _ _ _ hr

/-- The manual branch answers with the NoAmount error for the empty list of fields and
for no other list. -/
theorem validateManual_noAmount_iff (h : Host) (fields : List String)
    (inputs : String → String) :
    validateManual h fields inputs = .invalid "Please enter a transaction amount." ↔
      fields = [] := by
  constructor
  · intro hr
    cases fields with
    | nil => rfl
    | cons field rest =>
      exfalso
      unfold validateManual at hr
      cases hres : validateFields h inputs (field :: rest) [] false with
      | error e =>
        rw [hres] at hr
        obtain ⟨f, hf⟩ := validateFields_error h inputs _ _ _ _ hres
        injection hr with he
        rw [hf] at he
        exact fieldMessage_ne_noAmount f he
      | ok pr =>
        obtain ⟨result, hasValue⟩ := pr
        rw [hres] at hr
        simp only [validateFields] at hres
        split at hres
        · cases hres
        · rename_i hcond
          have hv : strTruthy (jsTrim (inputs field)) = true := by
            cases hs : strTruthy (jsTrim (inputs field)) with
            | true => rfl
            | false => simp [hs] at hcond
          simp only [hv, if_true] at hres
          have := validateFields_hasValue h inputs rest _ _ _ hres
          simp [this] at hr
  · intro hf
    subst hf
    rfl

/-! ## Validation: the claims -/

/-- C1: in manual mode (the JSON box absent, empty or blank), for every Amount text
whose trimmed form is not empty and converts to a number other than NaN,
`validateInput` returns a valid payload that is an object with exactly the keys
V1..V28 and Amount, in which every key other than Amount has the value it has in
`defaultFeaturePayload` and in `sampleData`, and Amount is the number converted from
the trimmed text. -/
theorem validateInput_manual_payload (h : Host) (st : AppState)
    (hjson : ∀ text, st.jsonInput = some text → jsTrim text = "")
    (hne : jsTrim (st.manualInputs "Amount") ≠ "")
    (hnum : h.stringToNumber (jsTrim (st.manualInputs "Amount")) ≠ .nan) :
    ∃ entries, validateInput h st = .valid (.obj entries) ∧
      entries.map Prod.fst = featureKeys ∧
      (∀ key, key ≠ "Amount" → objGet entries key = objGet defaultFeaturePayload key) ∧
      (∀ key, key ≠ "Amount" → objGet entries key = objGet sampleData key) ∧
      objGet entries "Amount" =
        .num (h.stringToNumber (jsTrim (st.manualInputs "Amount"))) := by
  refine ⟨defaultFeaturePayload ++
    [("Amount", .num (h.stringToNumber (jsTrim (st.manualInputs "Amount"))))], ?_, ?_, ?_, ?_, ?_⟩
  · rw [validateInput_of_blank h st hjson, validateManual_manualFields]
    simp [hne, hnum]
  · exact keys_default_amount _
  · intro key hk
    exact objGet_append_other _ _ _ _ hk
  · intro key hk
    rw [objGet_append_other _ _ _ _ hk]
    exact objGet_filter_other sampleData "Amount" key hk
  · exact objGet_default_amount _

/-- C1, at the page with ` 149.62` in the Amount field and an empty JSON box. -/
theorem validateInput_manual_payload_witness :
    jsTrim (amountState.manualInputs "Amount") = "149.62" ∧
    ∃ entries, validateInput demoHost amountState = .valid (.obj entries) ∧
      entries.map Prod.fst = featureKeys ∧
      (∀ key, key ≠ "Amount" → objGet entries key = objGet defaultFeaturePayload key) ∧
      (∀ key, key ≠ "Amount" → objGet entries key = objGet sampleData key) ∧
      objGet entries "Amount" =
        .num (demoHost.stringToNumber (jsTrim (amountState.manualInputs "Amount"))) :=
  ⟨by decide,
    validateInput_manual_payload demoHost amountState
      (by
        intro text ht
        have : text = "" := by
          simpa [amountState, idleState] using ht.symm
        subst this
        decide)
      (by decide)
      (by
        have ht : jsTrim (amountState.manualInputs "Amount") = "149.62" := by decide
        rw [ht]
        simp [demoHost])⟩

/-- C2: in manual mode (the JSON box absent, empty or blank), for every Amount text
whose trimmed form is empty or converts to NaN, `validateInput` returns the error
"Please enter a numeric value for Amount." and no valid payload. -/
theorem validateInput_manual_nonNumeric (h : Host) (st : AppState)
    (hjson : ∀ text, st.jsonInput = some text → jsTrim text = "")
    (hbad : jsTrim (st.manualInputs "Amount") = "" ∨
      h.stringToNumber (jsTrim (st.manualInputs "Amount")) = .nan) :
    validateInput h st = .invalid "Please enter a numeric value for Amount." ∧
      ∀ payload, validateInput h st ≠ .valid payload := by
  have hr : validateInput h st = .invalid "Please enter a numeric value for Amount." := by
    rw [validateInput_of_blank h st hjson, validateManual_manualFields]
    simp [hbad]
  refine ⟨hr, ?_⟩
  intro payload hp
  rw [hr] at hp
  cases hp

/-- C2, at the page with `abc` in the Amount field and an empty JSON box. -/
theorem validateInput_manual_nonNumeric_witness :
    demoHost.stringToNumber (jsTrim (lettersState.manualInputs "Amount")) = .nan ∧
    validateInput demoHost lettersState = .invalid "Please enter a numeric value for Amount." ∧
      ∀ payload, validateInput demoHost lettersState ≠ .valid payload :=
  ⟨by decide,
    validateInput_manual_nonNumeric demoHost lettersState
      (by
        intro text ht
        have : text = "" := by
          simpa [lettersState, idleState] using ht.symm
        subst this
        decide)
      (Or.inr (by decide))⟩

/-- C3: for every text in the JSON box that is not blank and that parses, whatever the
manual fields hold, `validateInput` returns the parsed value as a valid payload if and
only if it is an object that is neither null nor an array, and returns the error
"JSON payload must be an object." for every other parsed value (an array, null, a
number, a string, a boolean). -/
theorem validateInput_json_object_iff (h : Host) (st : AppState) (text : String)
    (v : JsValue) (hj : st.jsonInput = some text) (hne : jsTrim text ≠ "")
    (hp : h.jsonParse text = some v) :
    (validateInput h st = .valid v ↔ ∃ entries, v = .obj entries) ∧
    ((∀ entries, v ≠ .obj entries) →
      validateInput h st = .invalid "JSON payload must be an object.") ∧
    (∀ items, v = .arr items → validateInput h st = .invalid "JSON payload must be an object.") ∧
    (v = .null → validateInput h st = .invalid "JSON payload must be an object.") ∧
    (∀ n, v = .num n → validateInput h st = .invalid "JSON payload must be an object.") ∧
    (∀ t, v = .str t → validateInput h st = .invalid "JSON payload must be an object.") ∧
    (∀ b, v = .bool b → validateInput h st = .invalid "JSON payload must be an object.") := by
  have hnot : (∀ entries, v ≠ .obj entries) →
      validateInput h st = .invalid "JSON payload must be an object." := by
    intro hno
    rw [validateInput_of_text h st text hj hne]
    rcases validateJson_cases h text with ⟨hn, _⟩ | ⟨entries, he, _⟩ | ⟨w, hw, _, hr⟩
    · rw [hp] at hn
      cases hn
    · rw [hp] at he
      injection he with he
      exact absurd he (hno entries)
    · exact hr
  refine ⟨?_, hnot, ?_, ?_, ?_, ?_, ?_⟩
  · rw [validateInput_of_text h st text hj hne]
    rcases validateJson_cases h text with ⟨hn, _⟩ | ⟨entries, he, hr⟩ | ⟨w, hw, hno, hr⟩
    · rw [hp] at hn
      cases hn
    · rw [hp] at he
      injection he with he
      subst he
      exact ⟨fun _ => ⟨entries, rfl⟩, fun _ => hr⟩
    · rw [hp] at hw
      injection hw with hw
      subst hw
      rw [hr]
      constructor
      · intro hc
        cases hc
      · rintro ⟨entries, he⟩
        exact absurd he (hno entries)
  · intro items hv
    exact hnot (by subst hv; simp)
  · intro hv
    exact hnot (by subst hv; simp)
  · intro n hv
    exact hnot (by subst hv; simp)
  · intro t hv
    exact hnot (by subst hv; simp)
  · intro b hv
    exact hnot (by subst hv; simp)

/-- C3, at the page with the array `[1, 2]` in the JSON box. -/
theorem validateInput_json_object_iff_witness :
    validateInput demoHost arrayJsonState = .invalid "JSON payload must be an object." :=
  (validateInput_json_object_iff demoHost arrayJsonState "[1, 2]"
    (.arr [.num (.fin 1), .num (.fin 2)]) rfl (by decide) rfl).2.1 (by simp)

/-- C4 as stated fails: a single space in the JSON box is a text that is not empty and
that `JSON.parse` rejects, yet with ` 149.62` in the Amount field `validateInput`
returns the manual payload and not the error "Invalid JSON format.". -/
theorem validateInput_space_json_not_invalid :
    blankJsonState.jsonInput = some " " ∧ (" " : String) ≠ "" ∧
    demoHost.jsonParse " " = none ∧
    validateInput demoHost blankJsonState =
      .valid (.obj (defaultFeaturePayload ++ [("Amount", .num (.fin 149.62))])) ∧
    validateInput demoHost blankJsonState ≠ .invalid "Invalid JSON format." := by
  have hr : validateInput demoHost blankJsonState =
      .valid (.obj (defaultFeaturePayload ++ [("Amount", .num (.fin 149.62))])) := rfl
  refine ⟨rfl, by decide, rfl, hr, ?_⟩
  rw [hr]
  intro hc
  cases hc

/-- C4, amended: for every text in the JSON box that is not blank (not empty once
trimmed) and that `JSON.parse` rejects, whatever the manual fields hold,
`validateInput` returns the error "Invalid JSON format.". -/
theorem validateInput_invalid_json (h : Host) (st : AppState) (text : String)
    (hj : st.jsonInput = some text) (hne : jsTrim text ≠ "")
    (hp : h.jsonParse text = none) :
    validateInput h st = .invalid "Invalid JSON format." := by
  rw [validateInput_of_text h st text hj hne]
  simp [validateJson, hp]

/-- C4 amended, at the page with an unfinished object in the JSON box. -/
theorem validateInput_invalid_json_witness :
    validateInput demoHost brokenJsonState = .invalid "Invalid JSON format." :=
  validateInput_invalid_json demoHost brokenJsonState "\x7boops" rfl (by decide) rfl

/-- C9 as stated fails: in JSON mode `validateInput` returns as valid an object one of
whose values is a string. -/
theorem validateInput_json_string_value :
    validateInput demoHost stringValueState = .valid (.obj [("V1", .str "high")]) := by
  rfl

/-- C9, amended: every payload `validateInput` returns as valid is an object, never an
array, null or a primitive value; in manual mode (the JSON box absent, empty or blank)
every value of that object is a number other than NaN; in JSON mode the payload is the
parsed JSON text, whose values are not inspected. -/
theorem validateInput_valid_payload_shape (h : Host) (st : AppState) (payload : JsValue)
    (hv : validateInput h st = .valid payload) :
    ∃ entries, payload = .obj entries ∧
      ((∀ text, st.jsonInput = some text → jsTrim text = "") →
        ∀ kv ∈ entries, ∃ n, kv.2 = .num n ∧ n ≠ .nan) ∧
      (∀ text, st.jsonInput = some text → jsTrim text ≠ "" →
        h.jsonParse text = some payload) := by
  by_cases hblank : ∀ text, st.jsonInput = some text → jsTrim text = ""
  · rw [validateInput_of_blank h st hblank, validateManual_manualFields] at hv
    split at hv
    · cases hv
    · rename_i hcond
      injection hv with hv
      refine ⟨_, hv.symm, ?_, ?_⟩
      · intro _ kv hkv
        rcases List.mem_append.1 hkv with hd | ha
        · exact defaultFeaturePayload_numbers kv hd
        · simp only [List.mem_singleton] at ha
          subst ha
          refine ⟨_, rfl, ?_⟩
          intro hn
          exact hcond (Or.inr hn)
      · intro text ht hne
        exact absurd (hblank text ht) hne
  · simp only [not_forall] at hblank
    obtain ⟨text, ht, hne⟩ := hblank
    rw [validateInput_of_text h st text ht hne] at hv
    rcases validateJson_cases h text with ⟨_, hr⟩ | ⟨entries, he, hr⟩ | ⟨w, _, _, hr⟩
    · rw [hr] at hv
      cases hv
    · rw [hr] at hv
      injection hv with hv
      refine ⟨entries, hv.symm, ?_, ?_⟩
      · intro hb
        exact absurd (hb text ht) hne
      · intro t2 ht2 _
        rw [ht] at ht2
        injection ht2 with ht2
        subst ht2
        rw [he, hv]
    · rw [hr] at hv
      cases hv

/-- C9 amended, at the page with ` 149.62` in the Amount field. -/
theorem validateInput_valid_payload_shape_witness :
    validateInput demoHost amountState =
      .valid (.obj (defaultFeaturePayload ++ [("Amount", .num (.fin 149.62))])) ∧
    ∃ entries, JsValue.obj (defaultFeaturePayload ++ [("Amount", .num (.fin 149.62))]) =
        .obj entries ∧
      ((∀ text, amountState.jsonInput = some text → jsTrim text = "") →
        ∀ kv ∈ entries, ∃ n, kv.2 = .num n ∧ n ≠ .nan) ∧
      (∀ text, amountState.jsonInput = some text → jsTrim text ≠ "" →
        demoHost.jsonParse text =
          some (.obj (defaultFeaturePayload ++ [("Amount", .num (.fin 149.62))]))) :=
  ⟨rfl, validateInput_valid_payload_shape demoHost amountState _ rfl⟩

/-- C10 as stated fails: with the Amount field and the JSON box both empty
`validateInput` returns the error naming the field, not the error
"Please enter a transaction amount.". -/
theorem validateInput_empty_amount_not_noAmount :
    idleState.manualInputs "Amount" = "" ∧ idleState.jsonInput = some "" ∧
    validateInput demoHost idleState = .invalid "Please enter a numeric value for Amount." ∧
    validateInput demoHost idleState ≠ .invalid "Please enter a transaction amount." := by
  have hr : validateInput demoHost idleState =
      .invalid "Please enter a numeric value for Amount." := rfl
  refine ⟨rfl, rfl, hr, ?_⟩
  rw [hr]
  intro hc
  injection hc with hc
  revert hc
  decide

/-- C10, amended: `validateInput` never returns the error
"Please enter a transaction amount."; in manual mode an empty or blank Amount field
gives the error "Please enter a numeric value for Amount."; the manual branch would
return the NoAmount error for an empty list of manual fields only, and the list of the
script is not empty. -/
theorem validateInput_never_noAmount (h : Host) (st : AppState) :
    validateInput h st ≠ .invalid "Please enter a transaction amount." ∧
    ((∀ text, st.jsonInput = some text → jsTrim text = "") →
      jsTrim (st.manualInputs "Amount") = "" →
        validateInput h st = .invalid "Please enter a numeric value for Amount.") ∧
    (∀ fields inputs,
      validateManual h fields inputs = .invalid "Please enter a transaction amount." ↔
        fields = []) ∧
    manualFields ≠ [] := by
  refine ⟨?_, ?_, fun fields inputs => validateManual_noAmount_iff h fields inputs, by decide⟩
  · by_cases hblank : ∀ text, st.jsonInput = some text → jsTrim text = ""
    · rw [validateInput_of_blank h st hblank]
      intro hc
      have := (validateManual_noAmount_iff h manualFields st.manualInputs).1 hc
      revert this
      decide
    · simp only [not_forall] at hblank
      obtain ⟨text, ht, hne⟩ := hblank
      rw [validateInput_of_text h st text ht hne]
      rcases validateJson_cases h text with ⟨_, hr⟩ | ⟨entries, _, hr⟩ | ⟨w, _, _, hr⟩
      · rw [hr]
        intro hc
        injection hc with hc
        revert hc
        decide
      · rw [hr]
        intro hc
        cases hc
      · rw [hr]
        intro hc
        injection hc with hc
        revert hc
        decide
  · intro hblank hempty
    rw [validateInput_of_blank h st hblank, validateManual_manualFields]
    simp [hempty]

/-- C10 amended, at the page as loaded. -/
theorem validateInput_never_noAmount_witness :
    validateInput demoHost idleState = .invalid "Please enter a numeric value for Amount." :=
  (validateInput_never_noAmount demoHost idleState).2.1
    (by
      intro text ht
      have : text = "" := by
        simpa [idleState] using ht.symm
      subst this
      decide)
    (by decide)

/-! ## Rendering: lemmas -/

theorem tenths_zero : tenths 0 = 0 := by
  have hf : ⌊((0 : ℚ) * 10 + 1 / 2)⌋ = 0 := by
    rw [Int.floor_eq_iff]
    constructor <;> norm_num
  unfold tenths
  rw [hf]
  rfl

theorem tenths_hundred : tenths 100 = 1000 := by
  have hf : ⌊((100 : ℚ) * 10 + 1 / 2)⌋ = 1000 := by
    rw [Int.floor_eq_iff]
    constructor <;> norm_num
  unfold tenths
  rw [hf]
  rfl

theorem tenths_le (x : ℚ) (hx : x ≤ 100) : tenths x ≤ 1000 := by
  have hf : ⌊(x * 10 + 1 / 2)⌋ < 1001 := by
    rw [Int.floor_lt]
    push_cast
    linarith
  unfold tenths
  omega

/-- The text `toFixed(1)` gives for a finite number between 0 and 100. -/
theorem toFixed1_of_range (h : Host) (x : ℚ) (h0 : 0 ≤ x) (h1 : x ≤ 100) :
    toFixed1 h (.fin x) = fixedDigits (tenths x) := by
  have hlt : ¬ x < 0 := not_lt.2 h0
  have hbig : ¬ (10 : ℚ) ^ 21 ≤ x := by
    intro hc
    have : (100 : ℚ) < 10 ^ 21 := by norm_num
    linarith
  simp [toFixed1, hlt, hbig]

/-- The clamp of `displayResults` is a finite number between 0 and 1 unless its
argument is NaN. -/
theorem clamp_range (p : JsNumber) (hp : p ≠ .nan) :
    ∃ c : ℚ, jsMax (.fin 0) (jsMin (.fin 1) p) = .fin c ∧ 0 ≤ c ∧ c ≤ 1 := by
  cases p with
  | nan => exact absurd rfl hp
  | posInf => exact ⟨1, by simp [jsMin, jsMax], by norm_num, le_refl _⟩
  | negInf => exact ⟨0, by simp [jsMin, jsMax], le_refl _, by norm_num⟩
  | fin q =>
    refine ⟨max 0 (min 1 q), by simp [jsMin, jsMax], le_max_left _ _, ?_⟩
    exact max_le (by norm_num) (min_le_left _ _)

/-- Clamping below first or above first gives the same number. -/
theorem clamp_comm (p : JsNumber) :
    jsMax (.fin 0) (jsMin (.fin 1) p) = jsMin (.fin 1) (jsMax (.fin 0) p) := by
  cases p with
  | nan => rfl
  | posInf => simp [jsMin, jsMax]
  | negInf => simp [jsMin, jsMax]
  | fin q =>
    simp only [jsMin, jsMax]
    congr 1
    rcases le_total q 0 with hq | hq
    · rw [min_eq_right (le_trans hq (by norm_num)), max_eq_left hq, min_eq_right (by norm_num)]
    · rcases le_total q 1 with hq1 | hq1
      · rw [min_eq_right hq1, max_eq_right hq, min_eq_right hq1]
      · rw [min_eq_left hq1, max_eq_right hq, min_eq_left hq1, max_eq_right (by norm_num)]

theorem clamp_of_le_zero (p : JsNumber) (hp : jsLe p (.fin 0) = true) :
    jsMax (.fin 0) (jsMin (.fin 1) p) = .fin 0 := by
  cases p with
  | nan => simp [jsLe] at hp
  | posInf => simp [jsLe] at hp
  | negInf => simp [jsMin, jsMax]
  | fin q =>
    simp only [jsLe, decide_eq_true_eq] at hp
    simp only [jsMin, jsMax]
    rw [min_eq_right (le_trans hp (by norm_num)), max_eq_left hp]

theorem clamp_of_one_le (p : JsNumber) (hp : jsLe (.fin 1) p = true) :
    jsMax (.fin 0) (jsMin (.fin 1) p) = .fin 1 := by
  cases p with
  | nan => simp [jsLe] at hp
  | posInf => simp [jsMin, jsMax]
  | negInf => simp [jsLe] at hp
  | fin q =>
    simp only [jsLe, decide_eq_true_eq] at hp
    simp only [jsMin, jsMax]
    rw [min_eq_left hp, max_eq_right (by norm_num)]

/-- A response body one of whose properties can be read lets every property be
read. -/
theorem getProp_ok_of_ok (h : Host) (data : JsValue) (k1 k2 : String) (v : JsValue)
    (hv : getProp h data k1 = .ok v) : ∃ w, getProp h data k2 = .ok w := by
  cases data <;> simp [getProp] at hv ⊢

/-- The function `updateChart` leaves the probability text and the badge as they
are. -/
theorem updateChart_texts (h : Host) (chartFails : Option String) (p : JsNumber)
    (st : AppState) :
    (updateChart h chartFails p st).1.probabilityText = st.probabilityText ∧
    (updateChart h chartFails p st).1.badgeClasses = st.badgeClasses := by
  unfold updateChart
  cases st.chartInstance <;> cases chartFails <;> simp

/-- The probability text `displayResults` leaves when the probability can be read. -/
theorem displayResults_probabilityText (h : Host) (chartFails : Option String)
    (data : JsValue) (st : AppState) (fp : JsValue)
    (hfp : getProp h data "fraud_probability" = .ok fp) :
    (displayResults h chartFails data st).1.probabilityText =
      toFixed1 h (jsMul h (jsMax (.fin 0) (jsMin (.fin 1) (toNumber h fp))) (.fin 100))
        ++ "%" := by
  obtain ⟨rl, hrl⟩ := getProp_ok_of_ok h data _ "risk_level" fp hfp
  simp only [displayResults, hfp, hrl]
  rw [(updateChart_texts h chartFails _ _).1]

/-- The classes `displayResults` leaves on the badge when the risk level can be
read. -/
theorem displayResults_badgeClasses (h : Host) (chartFails : Option String)
    (data : JsValue) (st : AppState) (rl : JsValue)
    (hrl : getProp h data "risk_level" = .ok rl) :
    (displayResults h chartFails data st).1.badgeClasses =
      classAdd (classRemove st.badgeClasses badgeStyles) (badgeClassFor rl) := by
  obtain ⟨fp, hfp⟩ := getProp_ok_of_ok h data _ "fraud_probability" rl hrl
  simp only [displayResults, hfp, hrl]
  rw [(updateChart_texts h chartFails _ _).2]
  rfl

theorem strictEqStr_iff (v : JsValue) (s : String) :
    strictEqStr v s = true ↔ v = .str s := by
  cases v <;> simp [strictEqStr]

theorem badgeClassFor_mem (rl : JsValue) : badgeClassFor rl ∈ badgeStyles := by
  unfold badgeClassFor badgeStyles
  split
  · simp
  · split <;> simp

/-- The three cases of the class put on the badge. -/
theorem badgeClassFor_cases (rl : JsValue) :
    (rl = .str "HIGH" ∧ badgeClassFor rl = "badge-error") ∨
    (rl = .str "MEDIUM" ∧ badgeClassFor rl = "badge-warning") ∨
    (rl ≠ .str "HIGH" ∧ rl ≠ .str "MEDIUM" ∧ badgeClassFor rl = "badge-success") := by
  by_cases hH : rl = .str "HIGH"
  · subst hH
    exact Or.inl ⟨rfl, rfl⟩
  · by_cases hM : rl = .str "MEDIUM"
    · subst hM
      exact Or.inr (Or.inl ⟨rfl, rfl⟩)
    · have h1 : strictEqStr rl "HIGH" = false := by
        rw [← Bool.not_eq_true, strictEqStr_iff]
        exact hH
      have h2 : strictEqStr rl "MEDIUM" = false := by
        rw [← Bool.not_eq_true, strictEqStr_iff]
        exact hM
      exact Or.inr (Or.inr ⟨hH, hM, by simp [badgeClassFor, h1, h2]⟩)

theorem badgeClassFor_error_iff (rl : JsValue) :
    badgeClassFor rl = "badge-error" ↔ rl = .str "HIGH" := by
  rcases badgeClassFor_cases rl with ⟨h1, h2⟩ | ⟨h1, h2⟩ | ⟨h1, h3, h2⟩
  · exact ⟨fun _ => h1, fun _ => h2⟩
  · rw [h2, h1]
    simp
  · rw [h2]
    simp [h1]

theorem badgeClassFor_warning_iff (rl : JsValue) :
    badgeClassFor rl = "badge-warning" ↔ rl = .str "MEDIUM" := by
  rcases badgeClassFor_cases rl with ⟨h1, h2⟩ | ⟨h1, h2⟩ | ⟨h1, h3, h2⟩
  · rw [h2, h1]
    simp
  · exact ⟨fun _ => h1, fun _ => h2⟩
  · rw [h2]
    simp [h3]

theorem badgeClassFor_success_iff (rl : JsValue) :
    badgeClassFor rl = "badge-success" ↔ rl ≠ .str "HIGH" ∧ rl ≠ .str "MEDIUM" := by
  rcases badgeClassFor_cases rl with ⟨h1, h2⟩ | ⟨h1, h2⟩ | ⟨h1, h3, h2⟩
  · rw [h2, h1]
    simp
  · rw [h2, h1]
    simp
  · exact ⟨fun _ => ⟨h1, h3⟩, fun _ => h2⟩

/-- Removing a list of names and adding one of them leaves that one name as the only
one of the list, and every other class as it was. -/
theorem classAdd_classRemove (classes names : List String) (name : String)
    (hn : name ∈ names) :
    classAdd (classRemove classes names) name = classRemove classes names ++ [name] ∧
    (classAdd (classRemove classes names) name).filter (fun c => names.contains c) = [name] ∧
    (∀ c, c ∈ classAdd (classRemove classes names) name ↔
      (c ∈ classes ∧ c ∉ names) ∨ c = name) := by
  have hnot : name ∉ classRemove classes names := by
    simp [classRemove, hn]
  have hadd : classAdd (classRemove classes names) name =
      classRemove classes names ++ [name] := by
    simp [classAdd, hnot]
  refine ⟨hadd, ?_, ?_⟩
  · rw [hadd, List.filter_append]
    have h1 : (classRemove classes names).filter (fun c => names.contains c) = [] := by
      rw [List.filter_eq_nil_iff]
      intro c hc
      simp only [classRemove, List.mem_filter] at hc
      simpa using hc.2
    rw [h1]
    simp [hn]
  · intro c
    rw [hadd]
    simp [classRemove]

/-! ## Submission and rendering: the claims -/

/-- C5: `submitPrediction` releases the loading state on every exit path: from a state
whose loading state is released, whatever the validation result, the outcome of the
request (a rejected promise, a response with or without `ok`, a body that fails to
parse), the response body and the behaviour of the chart library, the run ends with the
three buttons enabled and the loading indicator hidden; and a run that passes
validation ends so from any state. -/
theorem submitPrediction_releases_loading (h : Host) (fetchPredict : JsValue → FetchOutcome)
    (chartFails : Option String) (st : AppState) :
    (loadingReleased st → loadingReleased (submitPrediction h fetchPredict chartFails st)) ∧
    (∀ payload, validateInput h (clearError st) = .valid payload →
      loadingReleased (submitPrediction h fetchPredict chartFails st)) := by
  have hvalid : ∀ payload, validateInput h (clearError st) = .valid payload →
      loadingReleased (submitPrediction h fetchPredict chartFails st) := by
    intro payload hv
    simp only [submitPrediction, hv]
    exact ⟨rfl, rfl, rfl, rfl⟩
  refine ⟨?_, hvalid⟩
  intro hst
  cases hv : validateInput h (clearError st) with
  | invalid e =>
    have hrun : submitPrediction h fetchPredict chartFails st =
        displayError e (clearError st) := by
      simp only [submitPrediction, hv]
    rw [hrun]
    exact hst
  | valid payload => exact hvalid payload hv

/-- C5, at the page with ` 149.62` in the Amount field and a server answering with a
HIGH result. -/
theorem submitPrediction_releases_loading_witness :
    loadingReleased amountState ∧
    loadingReleased (submitPrediction demoHost highServer none amountState) :=
  ⟨⟨rfl, rfl, rfl, rfl⟩,
    (submitPrediction_releases_loading demoHost highServer none amountState).1
      ⟨rfl, rfl, rfl, rfl⟩⟩

/-- C6: for a host whose rounding is monotone and exact at 0 and at 100, and every
response body whose `fraud_probability` is a number `p` other than NaN, the probability
text left by `displayResults` is `toFixed(1)` of `100 * min(1, max(0, p))` followed by
`%`; it is the text of `n / 10` for an integer `n` between 0 and 1000, so between 0.0%
and 100.0%; it is `0.0%` for every `p <= 0` and `100.0%` for every `p >= 1`. -/
theorem displayResults_clamps_probability (h : Host) (chartFails : Option String)
    (data : JsValue) (st : AppState) (p : JsNumber)
    (hmono : Monotone h.fround) (h0 : h.fround 0 = 0) (h100 : h.fround 100 = 100)
    (hp : getProp h data "fraud_probability" = .ok (.num p)) (hnan : p ≠ .nan) :
    (displayResults h chartFails data st).1.probabilityText =
      toFixed1 h (jsMul h (jsMin (.fin 1) (jsMax (.fin 0) p)) (.fin 100)) ++ "%" ∧
    (∃ n : Nat, n ≤ 1000 ∧
      (displayResults h chartFails data st).1.probabilityText = fixedDigits n ++ "%") ∧
    (jsLe p (.fin 0) = true →
      (displayResults h chartFails data st).1.probabilityText = "0.0%") ∧
    (jsLe (.fin 1) p = true →
      (displayResults h chartFails data st).1.probabilityText = "100.0%") := by
  have htext := displayResults_probabilityText h chartFails data st _ hp
  simp only [toNumber] at htext
  refine ⟨?_, ?_, ?_, ?_⟩
  · rw [htext, clamp_comm]
  · obtain ⟨c, hc, hc0, hc1⟩ := clamp_range p hnan
    have hlo : 0 ≤ h.fround (c * 100) := by
      have := hmono (show (0 : ℚ) ≤ c * 100 by linarith)
      rwa [h0] at this
    have hhi : h.fround (c * 100) ≤ 100 := by
      have := hmono (show c * 100 ≤ (100 : ℚ) by linarith)
      rwa [h100] at this
    refine ⟨tenths (h.fround (c * 100)), tenths_le _ hhi, ?_⟩
    rw [htext, hc]
    simp only [jsMul]
    rw [toFixed1_of_range h _ hlo hhi]
  · intro hle
    rw [htext, clamp_of_le_zero p hle]
    simp only [jsMul]
    rw [zero_mul, h0, toFixed1_of_range h 0 (le_refl _) (by norm_num), tenths_zero]
    decide
  · intro hle
    rw [htext, clamp_of_one_le p hle]
    simp only [jsMul]
    rw [one_mul, h100, toFixed1_of_range h 100 (by norm_num) (le_refl _), tenths_hundred]
    decide

/-- C6, at the probabilities -0.2 and 1.5. -/
theorem displayResults_clamps_probability_witness :
    (displayResults demoHost none belowResult idleState).1.probabilityText = "0.0%" ∧
    (displayResults demoHost none aboveResult idleState).1.probabilityText = "100.0%" :=
  ⟨(displayResults_clamps_probability demoHost none belowResult idleState (.fin (-0.2))
      monotone_id rfl rfl rfl (by simp)).2.2.1
      (by simp only [jsLe, decide_eq_true_eq]; norm_num),
    (displayResults_clamps_probability demoHost none aboveResult idleState (.fin 1.5)
      monotone_id rfl rfl rfl (by simp)).2.2.2
      (by simp only [jsLe, decide_eq_true_eq]; norm_num)⟩

/-- C7: for every response body whose `risk_level` can be read (every body but null and
undefined) and every list of classes the badge had before, after `displayResults` the
badge carries exactly one of the classes badge-success, badge-warning, badge-error:
badge-error if and only if `risk_level` is the string HIGH, badge-warning if and only
if it is the string MEDIUM, badge-success in every other case (LOW, any other value, a
missing `risk_level`); every other class of the badge is as before. -/
theorem displayResults_badge_style (h : Host) (chartFails : Option String) (data : JsValue)
    (st : AppState) (riskLevel : JsValue)
    (hrl : getProp h data "risk_level" = .ok riskLevel) :
    ((displayResults h chartFails data st).1.badgeClasses.filter
      (fun c => badgeStyles.contains c)).length = 1 ∧
    ("badge-error" ∈ (displayResults h chartFails data st).1.badgeClasses ↔
      riskLevel = .str "HIGH") ∧
    ("badge-warning" ∈ (displayResults h chartFails data st).1.badgeClasses ↔
      riskLevel = .str "MEDIUM") ∧
    ("badge-success" ∈ (displayResults h chartFails data st).1.badgeClasses ↔
      riskLevel ≠ .str "HIGH" ∧ riskLevel ≠ .str "MEDIUM") ∧
    (riskLevel = .undefined →
      "badge-success" ∈ (displayResults h chartFails data st).1.badgeClasses) ∧
    (∀ c, c ∉ badgeStyles →
      (c ∈ (displayResults h chartFails data st).1.badgeClasses ↔ c ∈ st.badgeClasses)) := by
  rw [displayResults_badgeClasses h chartFails data st riskLevel hrl]
  obtain ⟨_, hfilter, hmem⟩ :=
    classAdd_classRemove st.badgeClasses badgeStyles (badgeClassFor riskLevel)
      (badgeClassFor_mem riskLevel)
  have hstyle : ∀ c, c ∈ badgeStyles →
      (c ∈ classAdd (classRemove st.badgeClasses badgeStyles) (badgeClassFor riskLevel) ↔
        badgeClassFor riskLevel = c) := by
    intro c hc
    rw [hmem]
    constructor
    · rintro (⟨_, hn⟩ | he)
      · exact absurd hc hn
      · exact he.symm
    · intro he
      exact Or.inr he.symm
  have hsucc : "badge-success" ∈
      classAdd (classRemove st.badgeClasses badgeStyles) (badgeClassFor riskLevel) ↔
        riskLevel ≠ .str "HIGH" ∧ riskLevel ≠ .str "MEDIUM" := by
    rw [hstyle _ (by decide), badgeClassFor_success_iff]
  refine ⟨by rw [hfilter]; rfl, ?_, ?_, hsucc, ?_, ?_⟩
  · rw [hstyle _ (by decide), badgeClassFor_error_iff]
  · rw [hstyle _ (by decide), badgeClassFor_warning_iff]
  · intro hu
    rw [hsucc, hu]
    simp
  · intro c hc
    rw [hmem]
    constructor
    · rintro (⟨hin, _⟩ | he)
      · exact hin
      · exact absurd (he ▸ badgeClassFor_mem riskLevel) hc
    · intro hin
      exact Or.inl ⟨hin, hc⟩

/-- C7, at a response with the risk level HIGH. -/
theorem displayResults_badge_style_witness :
    ((displayResults demoHost none highResult idleState).1.badgeClasses.filter
      (fun c => badgeStyles.contains c)).length = 1 ∧
    "badge-error" ∈ (displayResults demoHost none highResult idleState).1.badgeClasses :=
  ⟨(displayResults_badge_style demoHost none highResult idleState (.str "HIGH") rfl).1,
    (displayResults_badge_style demoHost none highResult idleState (.str "HIGH") rfl).2.1.2
      rfl⟩

/-! ## The chart: lemmas -/

theorem modifyAt_split (f : Chart → Chart) (before : List Chart) (c : Chart)
    (after : List Chart) :
    modifyAt f (before ++ c :: after) before.length = before ++ f c :: after := by
  induction before with
  | nil => rfl
  | cons b rest ih => simp [modifyAt, ih]

/-- With no chart held and the invariant, no chart is live. -/
theorem liveCharts_of_none (st : AppState) (hnone : st.chartInstance = none)
    (hinv : ChartInvariant st.chartInstance st.charts) : liveCharts st = 0 := by
  rw [hnone] at hinv
  simp only [ChartInvariant] at hinv
  unfold liveCharts
  rw [List.length_eq_zero, List.filter_eq_nil_iff]
  intro c hc
  simp [hinv c hc]

/-- With a chart held and the invariant, one chart is live. -/
theorem liveCharts_of_some (st : AppState) (i : Nat) (hsome : st.chartInstance = some i)
    (hinv : ChartInvariant st.chartInstance st.charts) : liveCharts st = 1 := by
  rw [hsome] at hinv
  obtain ⟨before, c, after, hsplit, _, hc, hb, ha⟩ := hinv
  unfold liveCharts
  rw [hsplit, List.filter_append, List.filter_cons]
  have h1 : before.filter (fun c => !c.destroyed) = [] := by
    rw [List.filter_eq_nil_iff]
    intro x hx
    simp [hb x hx]
  have h2 : after.filter (fun c => !c.destroyed) = [] := by
    rw [List.filter_eq_nil_iff]
    intro x hx
    simp [ha x hx]
  simp [h1, h2, hc]

/-- The chart variable and the registry after `updateChart` from a state holding no
chart. -/
theorem updateChart_of_none (h : Host) (chartFails : Option String) (p : JsNumber)
    (st : AppState) (hnone : st.chartInstance = none) :
    (chartFails = none →
      (updateChart h chartFails p st).1.chartInstance = some st.charts.length ∧
      (updateChart h chartFails p st).1.charts = st.charts ++ [freshChart h p]) ∧
    (chartFails ≠ none →
      (updateChart h chartFails p st).1.chartInstance = none ∧
      (updateChart h chartFails p st).1.charts = st.charts) := by
  unfold updateChart
  rw [hnone]
  cases chartFails with
  | none => simp [freshChart]
  | some e => simp [hnone]

/-- The chart variable and the registry after `updateChart` from a state holding the
chart at the index `before.length`. -/
theorem updateChart_of_some (h : Host) (chartFails : Option String) (p : JsNumber)
    (st : AppState) (before : List Chart) (c : Chart) (after : List Chart)
    (hsome : st.chartInstance = some before.length)
    (hsplit : st.charts = before ++ c :: after) :
    (updateChart h chartFails p st).1.chartInstance = some before.length ∧
    (chartFails = none →
      (updateChart h chartFails p st).1.charts = before ++ refreshedChart h p c :: after) ∧
    (chartFails ≠ none →
      (updateChart h chartFails p st).1.charts =
        before ++ { c with data := (refreshedChart h p c).data } :: after) := by
  unfold updateChart
  rw [hsome]
  cases chartFails with
  | none => simp [hsome, hsplit, modifyAt_split, refreshedChart]
  | some e => simp [hsome, hsplit, modifyAt_split, refreshedChart]

/-- The function `updateChart` keeps the chart invariant. -/
theorem updateChart_invariant (h : Host) (chartFails : Option String) (p : JsNumber)
    (st : AppState) (hinv : ChartInvariant st.chartInstance st.charts) :
    ChartInvariant (updateChart h chartFails p st).1.chartInstance
      (updateChart h chartFails p st).1.charts := by
  cases hci : st.chartInstance with
  | none =>
    have hu := updateChart_of_none h chartFails p st hci
    rw [hci] at hinv
    cases chartFails with
    | none =>
      obtain ⟨h1, h2⟩ := hu.1 rfl
      rw [h1, h2]
      exact ⟨st.charts, freshChart h p, [], rfl, rfl, rfl, hinv, by simp⟩
    | some e =>
      obtain ⟨h1, h2⟩ := hu.2 (by simp)
      rw [h1, h2]
      exact hinv
  | some i =>
    rw [hci] at hinv
    obtain ⟨before, c, after, hsplit, hlen, hc, hb, ha⟩ := hinv
    subst hlen
    obtain ⟨h1, h2, h3⟩ := updateChart_of_some h chartFails p st before c after hci hsplit
    rw [h1]
    cases chartFails with
    | none =>
      rw [h2 rfl]
      exact ⟨before, _, after, rfl, rfl, hc, hb, ha⟩
    | some e =>
      rw [h3 (by simp)]
      exact ⟨before, _, after, rfl, rfl, hc, hb, ha⟩

/-- The chart variable and the registry after `clearForm`. -/
theorem clearForm_charts (st : AppState) :
    (clearForm st).chartInstance = none ∧
    (st.chartInstance = none → (clearForm st).charts = st.charts) ∧
    (∀ before c after, st.chartInstance = some before.length →
      st.charts = before ++ c :: after →
        (clearForm st).charts = before ++ { c with destroyed := true } :: after) := by
  unfold clearForm
  simp only [manualFields, List.foldl, clearError]
  cases hj : st.jsonInput <;> cases hci : st.chartInstance <;>
    simp [hci, modifyAt_split] <;>
    (intro before c after hlen hsplit; subst hlen; rw [hsplit, modifyAt_split])

/-- The function `clearForm` keeps the chart invariant. -/
theorem clearForm_invariant (st : AppState)
    (hinv : ChartInvariant st.chartInstance st.charts) :
    ChartInvariant (clearForm st).chartInstance (clearForm st).charts := by
  obtain ⟨h1, h2, h3⟩ := clearForm_charts st
  rw [h1]
  cases hci : st.chartInstance with
  | none =>
    rw [h2 hci]
    rw [hci] at hinv
    exact hinv
  | some i =>
    rw [hci] at hinv
    obtain ⟨before, c, after, hsplit, hlen, _, hb, ha⟩ := hinv
    subst hlen
    rw [h3 before c after hci hsplit]
    intro x hx
    rcases List.mem_append.1 hx with hx | hx
    · exact hb x hx
    · rcases List.mem_cons.1 hx with hx | hx
      · rw [hx]
      · exact ha x hx

/-- The function `displayResults` keeps the chart invariant. -/
theorem displayResults_invariant (h : Host) (chartFails : Option String) (data : JsValue)
    (st : AppState) (hinv : ChartInvariant st.chartInstance st.charts) :
    ChartInvariant (displayResults h chartFails data st).1.chartInstance
      (displayResults h chartFails data st).1.charts := by
  unfold displayResults
  cases hfp : getProp h data "fraud_probability" with
  | error e => exact hinv
  | ok fp =>
    cases hrl : getProp h data "risk_level" with
    | error e => exact hinv
    | ok rl => exact updateChart_invariant h chartFails _ _ hinv

/-- The `try` block of the submit functions keeps the chart invariant. -/
theorem predictionAttempt_invariant (h : Host) (net : FetchOutcome)
    (chartFails : Option String) (st : AppState)
    (hinv : ChartInvariant st.chartInstance st.charts) :
    ChartInvariant (predictionAttempt h net chartFails st).1.chartInstance
      (predictionAttempt h net chartFails st).1.charts := by
  unfold predictionAttempt
  cases net with
  | rejected message => exact hinv
  | response ok body =>
    cases body with
    | throws message => exact hinv
    | parsed data =>
      cases ok with
      | true => exact displayResults_invariant h chartFails data st hinv
      | false =>
        cases he : getProp h data "error" with
        | error e => simpa [he] using hinv
        | ok err => simpa [he] using hinv

/-- The function `submitPredictionPayload` keeps the chart invariant. -/
theorem submitPredictionPayload_invariant (h : Host) (fetchPredict : JsValue → FetchOutcome)
    (chartFails : Option String) (payload : JsValue) (st : AppState)
    (hinv : ChartInvariant st.chartInstance st.charts) :
    ChartInvariant (submitPredictionPayload h fetchPredict chartFails payload st).chartInstance
      (submitPredictionPayload h fetchPredict chartFails payload st).charts := by
  have hpa := predictionAttempt_invariant h (fetchPredict payload) chartFails
    (setLoading true st) hinv
  simp only [submitPredictionPayload]
  rcases hres : predictionAttempt h (fetchPredict payload) chartFails (setLoading true st)
    with ⟨st2, _ | message⟩
  · rw [hres] at hpa
    exact hpa
  · rw [hres] at hpa
    exact hpa

/-- The function `submitPrediction` keeps the chart invariant. -/
theorem submitPrediction_invariant (h : Host) (fetchPredict : JsValue → FetchOutcome)
    (chartFails : Option String) (st : AppState)
    (hinv : ChartInvariant st.chartInstance st.charts) :
    ChartInvariant (submitPrediction h fetchPredict chartFails st).chartInstance
      (submitPrediction h fetchPredict chartFails st).charts := by
  cases hv : validateInput h (clearError st) with
  | invalid e =>
    simp only [submitPrediction, hv]
    exact hinv
  | valid payload =>
    have hpa := predictionAttempt_invariant h (fetchPredict payload) chartFails
      (setLoading true (clearError st)) hinv
    simp only [submitPrediction, hv]
    rcases hres : predictionAttempt h (fetchPredict payload) chartFails
      (setLoading true (clearError st)) with ⟨st2, _ | message⟩
    · rw [hres] at hpa
      exact hpa
    · rw [hres] at hpa
      exact hpa

/-- Every event keeps the chart invariant. -/
theorem step_invariant (h : Host) (st : AppState) (a : Action)
    (hinv : ChartInvariant st.chartInstance st.charts) :
    ChartInvariant (step h st a).chartInstance (step h st a).charts := by
  cases a with
  | typeManual field text => exact hinv
  | typeJson text =>
    simp only [step]
    cases st.jsonInput <;> exact hinv
  | switchInputMode => exact hinv
  | fillSampleData randomAmount => exact hinv
  | clearForm => exact clearForm_invariant st hinv
  | updateChart p chartFails => exact updateChart_invariant h chartFails p st hinv
  | displayResults data chartFails => exact displayResults_invariant h chartFails data st hinv
  | submitPrediction fetchPredict chartFails =>
    exact submitPrediction_invariant h fetchPredict chartFails st hinv
  | submitPredictionPayload fetchPredict chartFails payload =>
    exact submitPredictionPayload_invariant h fetchPredict chartFails payload st hinv

/-- Every sequence of events keeps the chart invariant. -/
theorem runActions_invariant (h : Host) (actions : List Action) :
    ∀ st, ChartInvariant st.chartInstance st.charts →
      ChartInvariant (runActions h st actions).chartInstance
        (runActions h st actions).charts := by
  induction actions with
  | nil =>
    intro st hinv
    exact hinv
  | cons a rest ih =>
    intro st hinv
    exact ih (step h st a) (step_invariant h st a hinv)

/-- Every reachable state has the chart invariant. -/
theorem reachable_invariant (h : Host) (st : AppState) (hr : Reachable h st) :
    ChartInvariant st.chartInstance st.charts := by
  obtain ⟨st0, actions, hci, hcs, hst⟩ := hr
  subst hst
  apply runActions_invariant
  rw [hci, hcs]
  intro c hc
  cases hc

/-- The function `clearForm` keeps the length of the chart registry. -/
theorem clearForm_length (st : AppState)
    (hinv : ChartInvariant st.chartInstance st.charts) :
    (clearForm st).charts.length = st.charts.length := by
  obtain ⟨_, h2, h3⟩ := clearForm_charts st
  cases hci : st.chartInstance with
  | none => rw [h2 hci]
  | some i =>
    rw [hci] at hinv
    obtain ⟨before, c, after, hsplit, hlen, _, _, _⟩ := hinv
    subst hlen
    rw [h3 before c after hci hsplit, hsplit]
    simp

/-- What `updateChart` does from a state holding no chart, when the chart library does
not fail: a chart is constructed at a new index and no chart of the registry is
touched. -/
theorem updateChart_creates (h : Host) (p : JsNumber) (st : AppState)
    (hnone : st.chartInstance = none)
    (hinv : ChartInvariant st.chartInstance st.charts) :
    (updateChart h none p st).1.chartInstance = some st.charts.length ∧
    (updateChart h none p st).1.charts = st.charts ++ [freshChart h p] ∧
    liveCharts (updateChart h none p st).1 = 1 := by
  obtain ⟨h1, h2⟩ := (updateChart_of_none h none p st hnone).1 rfl
  exact ⟨h1, h2, liveCharts_of_some _ _ h1 (updateChart_invariant h none p st hinv)⟩

/-! ## The chart: the claim -/

/-- C8: in every state reachable, by any sequence of events, from a state in which no
chart has been constructed, at most one chart is constructed and not destroyed, and
there is one exactly when `chartInstance` is not null; `updateChart` with a chart held
keeps that chart in `chartInstance`, constructs no chart, and (when the chart library
does not fail) gives that chart its new data and one more update, leaving every other
chart as it is; `clearForm` destroys the chart held and sets `chartInstance` to null;
`updateChart` after `clearForm`, or from any reachable state holding no chart,
constructs a chart at a new index and touches no chart constructed before. -/
theorem chart_single_live (h : Host) (st : AppState) (hr : Reachable h st) :
    liveCharts st ≤ 1 ∧
    (liveCharts st = 1 ↔ st.chartInstance ≠ none) ∧
    (∀ i chartFails p, st.chartInstance = some i →
      (updateChart h chartFails p st).1.chartInstance = some i ∧
      (updateChart h chartFails p st).1.charts.length = st.charts.length ∧
      liveCharts (updateChart h chartFails p st).1 = 1 ∧
      (chartFails = none → ∃ before c after,
        st.charts = before ++ c :: after ∧ before.length = i ∧ c.destroyed = false ∧
        (updateChart h chartFails p st).1.charts =
          before ++ refreshedChart h p c :: after)) ∧
    ((clearForm st).chartInstance = none ∧ liveCharts (clearForm st) = 0 ∧
      (clearForm st).charts.length = st.charts.length ∧
      (∀ i, st.chartInstance = some i → ∃ before c after,
        st.charts = before ++ c :: after ∧ before.length = i ∧ c.destroyed = false ∧
        (clearForm st).charts = before ++ { c with destroyed := true } :: after)) ∧
    (∀ p, (updateChart h none p (clearForm st)).1.chartInstance = some st.charts.length ∧
      (updateChart h none p (clearForm st)).1.charts =
        (clearForm st).charts ++ [freshChart h p] ∧
      liveCharts (updateChart h none p (clearForm st)).1 = 1 ∧
      (∀ i, st.chartInstance = some i → i < st.charts.length)) ∧
    (∀ p, st.chartInstance = none →
      (updateChart h none p st).1.chartInstance = some st.charts.length ∧
      (updateChart h none p st).1.charts = st.charts ++ [freshChart h p] ∧
      liveCharts (updateChart h none p st).1 = 1) := by
  have hinv := reachable_invariant h st hr
  have hclear := clearForm_charts st
  have hcinv := clearForm_invariant st hinv
  have hlive : liveCharts st = 1 ↔ st.chartInstance ≠ none := by
    cases hci : st.chartInstance with
    | none => simp [liveCharts_of_none st hci hinv]
    | some i => simp [liveCharts_of_some st i hci hinv]
  have hsplit : ∀ i, st.chartInstance = some i → ∃ before c after,
      st.charts = before ++ c :: after ∧ before.length = i ∧ c.destroyed = false := by
    intro i hci
    rw [hci] at hinv
    obtain ⟨before, c, after, hs, hlen, hc, _, _⟩ := hinv
    exact ⟨before, c, after, hs, hlen, hc⟩
  refine ⟨?_, hlive, ?_, ⟨hclear.1, liveCharts_of_none _ hclear.1 hcinv,
    clearForm_length st hinv, ?_⟩, ?_, ?_⟩
  · cases hci : st.chartInstance with
    | none => simp [liveCharts_of_none st hci hinv]
    | some i => simp [liveCharts_of_some st i hci hinv]
  · intro i chartFails p hci
    obtain ⟨before, c, after, hs, hlen, hc⟩ := hsplit i hci
    subst hlen
    obtain ⟨h1, h2, h3⟩ := updateChart_of_some h chartFails p st before c after hci hs
    refine ⟨h1, ?_, liveCharts_of_some _ _ h1 (updateChart_invariant h chartFails p st hinv),
      ?_⟩
    · cases chartFails with
      | none =>
        rw [h2 rfl, hs]
        simp
      | some e =>
        rw [h3 (by simp), hs]
        simp
    · intro hnone
      exact ⟨before, c, after, hs, rfl, hc, h2 hnone⟩
  · intro i hci
    obtain ⟨before, c, after, hs, hlen, hc⟩ := hsplit i hci
    subst hlen
    exact ⟨before, c, after, hs, rfl, hc, hclear.2.2 before c after hci hs⟩
  · intro p
    obtain ⟨h1, h2, h3⟩ := updateChart_creates h p (clearForm st) hclear.1 hcinv
    rw [clearForm_length st hinv] at h1
    refine ⟨h1, h2, h3, ?_⟩
    intro i hci
    obtain ⟨before, c, after, hs, hlen, _⟩ := hsplit i hci
    rw [hs, ← hlen]
    simp
  · intro p hnone
    exact updateChart_creates h p st hnone hinv

/-- C8, at the end of a visit in which an amount is submitted, the form is cleared and
a result is shown again: two charts were constructed and one of them is live. -/
theorem chart_single_live_witness :
    Reachable demoHost (runActions demoHost idleState demoVisit) ∧
    (runActions demoHost idleState demoVisit).charts.length = 2 ∧
    (runActions demoHost idleState demoVisit).chartInstance = some 1 ∧
    liveCharts (runActions demoHost idleState demoVisit) ≤ 1 ∧
    (liveCharts (runActions demoHost idleState demoVisit) = 1 ↔
      (runActions demoHost idleState demoVisit).chartInstance ≠ none) :=
  ⟨⟨idleState, demoVisit, rfl, rfl, rfl⟩, rfl, rfl,
    (chart_single_live demoHost (runActions demoHost idleState demoVisit)
      ⟨idleState, demoVisit, rfl, rfl, rfl⟩).1,
    (chart_single_live demoHost (runActions demoHost idleState demoVisit)
      ⟨idleState, demoVisit, rfl, rfl, rfl⟩).2.1⟩

end FraudApp
